import Mathlib

/-
Verification development for the agol-publish repository.

The two scripts (agol-validate/flayer.py and agol-publish/NightStocker.py)
are embedded shallowly: Python strings are Lean String values and the
string primitives used by the scripts (lower, upper, strip, split,
replace, title, substring membership) are modelled character-wise on
String.data. Remote AGOL items, control-file rows, metadata records and
the loop state are plain structures; exceptions are modelled with Except.
-/

/-- Model of Python str.lower for the ASCII strings used by the scripts. -/
def pyLower (s : String) : String := String.mk (s.data.map Char.toLower)

/-- Model of Python str.upper for the ASCII strings used by the scripts. -/
def pyUpper (s : String) : String := String.mk (s.data.map Char.toUpper)

/-- Drop whitespace from both ends of a character list. -/
def strip_chars (l : List Char) : List Char :=
  (((l.dropWhile Char.isWhitespace).reverse).dropWhile Char.isWhitespace).reverse

/-- Model of Python str.strip with no arguments. -/
def pyStrip (s : String) : String := String.mk (strip_chars s.data)

/-- Model of the Python substring test needle in hay. -/
def is_sub : List Char → List Char → Bool
  | needle, [] => needle.isEmpty
  | needle, c :: rest => needle.isPrefixOf (c :: rest) || is_sub needle rest

/-- Worker for pySplitWs: accumulate the current word reversed, emit on whitespace. -/
def words_go : List Char → List Char → List (List Char)
  | [], cur => if cur.isEmpty then [] else [cur.reverse]
  | c :: rest, cur =>
    if c.isWhitespace then
      if cur.isEmpty then words_go rest [] else cur.reverse :: words_go rest []
    else words_go rest (c :: cur)

/-- Model of Python str.split with no arguments: split on whitespace runs, no empty pieces. -/
def pySplitWs (s : String) : List String := (words_go s.data []).map String.mk

/-- Worker for pySplitChar. -/
def split_char_go (sep : Char) : List Char → List Char → List (List Char)
  | [], cur => [cur.reverse]
  | c :: rest, cur =>
    if c = sep then cur.reverse :: split_char_go sep rest []
    else split_char_go sep rest (c :: cur)

/-- Model of Python str.split with a one-character separator (keeps empty pieces). -/
def pySplitChar (sep : Char) (s : String) : List String :=
  (split_char_go sep s.data []).map String.mk

/-- Worker for pySplitSep, fuelled by the input length; the fuel fallback
agrees with the result when the separator does not occur. -/
def split_sep_go (sep : List Char) : Nat → List Char → List Char → List (List Char)
  | _, [], acc => [acc.reverse]
  | 0, c :: rest, acc => [acc.reverse ++ (c :: rest)]
  | fuel + 1, c :: rest, acc =>
    if sep.isPrefixOf (c :: rest) then
      acc.reverse :: split_sep_go sep fuel (List.drop sep.length (c :: rest)) []
    else split_sep_go sep fuel rest (c :: acc)

/-- Model of Python str.split with a multi-character separator (keeps empty pieces). -/
def pySplitSep (sep s : String) : List String :=
  (split_sep_go sep.data s.data.length s.data []).map String.mk

/-- Worker for pyTitle; the flag records whether the previous character was a letter. -/
def title_go : Bool → List Char → List Char
  | _, [] => []
  | prev, c :: rest =>
    if c.isAlpha then
      (if prev then c.toLower else c.toUpper) :: title_go true rest
    else c :: title_go false rest

/-- Model of Python str.title for ASCII text. -/
def pyTitle (s : String) : String := String.mk (title_go false s.data)

/-- Model of Python str.replace for one-character patterns. -/
def pyReplaceChar (old new : Char) (s : String) : String :=
  String.mk (s.data.map (fun c => if c = old then new else c))

/-
flayer.py (agol-validate): the audit pipeline.
-/

/-- A remote AGOL item as the tag fixer sees it: title, current tags, and
the result of the sharing-group lookup. The value none models the
try/except failure at flayer.py lines 373-378, which leaves the group
list empty and records the item as a failed-group item. -/
structure RemoteItem where
  title : String
  tags : List String
  groupsResult : Option (List String)
deriving DecidableEq

/-- flayer.py line 116: tags that should be uppercased, saved as lower. -/
def uppercased_tags : List String := ["2g", "3g", "4g", "agrc", "aog", "at&t", "blm", "brat", "caf", "cdl", "daq", "dfcm", "dfirm", "dwq", "e911", "ems", "fae", "fcc", "fema", "gcdb", "gis", "gnis", "hava", "huc", "lir", "lrs", "lte", "luca", "mrrc", "nca", "ng911", "nox", "npsbn", "ntia", "nwi", "plss", "pm10", "psap", "sbdc", "sbi", "sgid", "sitla", "sligp", "trax", "uca", "udot", "ugs", "uhp", "uic", "usdw", "usfs", "usfws", "usps", "ustc", "ut", "uta", "vcp", "vista", "voc"]

/-- flayer.py lines 325-369: the per-tag checks of tag_fixer applied to one
already-stripped tag; returns the zero or one tags it contributes. -/
def fix_one_tag (title orig_tag : String) : List String :=
  let single_word_tag_in_title : Bool := (pySplitWs title).contains orig_tag
  let multi_word_tag_in_title : Bool :=
    orig_tag.data.contains ' ' && is_sub orig_tag.data title.data
  let cleaned_tag := pyLower orig_tag
  if cleaned_tag ∈ uppercased_tags then [pyUpper cleaned_tag]
  else if cleaned_tag = "utah" ∧ (pySplitWs title).contains orig_tag = false then ["Utah"]
  else if cleaned_tag = ".sd" ∨ cleaned_tag = "service definition" then []
  else if single_word_tag_in_title || multi_word_tag_in_title then []
  else [orig_tag]

/-- flayer.py lines 380-391: fold one sharing group into the tag list,
deriving the category from a group whose title contains the marker. -/
def add_category_tag (group : String) (new_tags : List String) : List String :=
  if is_sub ("Utah SGID").data group.data then
    let category := (pySplitSep "Utah SGID" group).getLastD ""
    let tags1 :=
      if pyLower category ∈ new_tags then (new_tags.erase (pyLower category)) ++ [category]
      else if category ∈ new_tags then new_tags
      else new_tags ++ [category]
    if "SGID" ∈ tags1 then tags1 else tags1 ++ ["SGID"]
  else new_tags

/-- flayer.py lines 315-391: the complete per-item tag recomputation of
tag_fixer (strip every tag, run the per-tag checks, then add category
tags from the sharing groups; a failed lookup leaves groups empty). -/
def item_new_tags (item : RemoteItem) : List String :=
  let orig_tags := item.tags.map pyStrip
  let groups := item.groupsResult.getD []
  groups.foldl (fun nt g => add_category_tag g nt)
    (orig_tags.flatMap (fix_one_tag item.title))

/-- Python sorted on a list of strings. -/
def py_sorted (l : List String) : List String := List.insertionSort (· ≤ ·) l

/-- flayer.py line 394: the write-back condition of tag_fixer. -/
def tags_changed (item : RemoteItem) : Bool :=
  decide (py_sorted item.tags ≠ py_sorted (item_new_tags item))

/-- flayer.py lines 302-417: the tag_fixer loop over all items, returning
the item list after the updates, the number of update calls issued, and
the failed-group report list. -/
def tag_fixer : List RemoteItem → List RemoteItem × Nat × List String
  | [] => ([], 0, [])
  | item :: rest =>
    let failed_here : List String := if item.groupsResult.isNone then [item.title] else []
    let prev := tag_fixer rest
    if tags_changed item then
      ({ item with tags := item_new_tags item } :: prev.1, prev.2.1 + 1,
        failed_here ++ prev.2.2)
    else (item :: prev.1, prev.2.1, failed_here ++ prev.2.2)

/-- First-match lookup in an insertion-ordered association list (the model
of a Python dict). -/
def group_of : List (String × List String) → String → List String
  | [], _ => []
  | (k, v) :: d, c => if k = c then v else group_of d c

/-- flayer.py lines 283-288: record one tag under its lowercased check tag
(dict update: append to the existing entry, or insert a new entry at the
end in insertion order). -/
def add_to_check : List (String × List String) → String → String → List (String × List String)
  | [], c, t => [(c, [t])]
  | (k, v) :: d, c, t => if k = c then (k, v ++ [t]) :: d else (k, v) :: add_to_check d c t

/-- flayer.py lines 278-288: the loop over all tags of the index. -/
def build_check : List (String × List String) → List String → List (String × List String)
  | acc, [] => acc
  | acc, tag :: rest => build_check (add_to_check acc (pyLower tag) tag) rest

/-- flayer.py lines 272-288 applied to a tag index given as a
(tag, item list) association list; only the keys are consulted (the
related item ids computed at line 282 are never used). -/
def tags_by_check_tag (tags_and_items : List (String × List String)) :
    List (String × List String) :=
  build_check [] (tags_and_items.map Prod.fst)

/-- flayer.py lines 290-294: keep the check tags with more than one
matching spelling. -/
def get_duplicate_tags (tags_and_items : List (String × List String)) :
    List (String × List String) :=
  (tags_by_check_tag tags_and_items).filter (fun p => decide (1 < p.2.length))

/-
NightStocker.py (agol-publish): the publishing pipeline.
-/

/-- One row of the control CSV (NightStocker.py line 205):
fully-qualified feature class name, title, credit, disposition. -/
structure Entry where
  fc_name : String
  title : String
  credit : String
  disposition : String
deriving DecidableEq

/-- One record of the metadata2.json lookup. -/
structure Metadata where
  tags : String
  description : String
  snippet : String
  licenseInfo : String
deriving DecidableEq

/-- The item_info dictionary produced by get_info (NightStocker.py
lines 248-257). -/
structure ItemInfo where
  name : String
  summary : String
  groups : List String
  tags : String
  description : String
  terms_of_use : String
  credits : String
  folder : String
deriving DecidableEq

/-- Python exceptions relevant to the publishing loop. -/
inductive PyError where
  | executeError (msg : String)
  | valueError (msg : String)
  | nameError
deriving DecidableEq

deriving instance DecidableEq for Except

/-- NightStocker.py line 214. -/
def base_tags : List String := ["AGRC", "SGID"]

/-- NightStocker.py line 225. -/
def shelved_disclaimer : String := "<i><b>NOTE</b>: This dataset is an older dataset that we have removed from the SGID and \x27shelved\x27 in ArcGIS Online. There may be a newer vintage of this dataset in the SGID.</i>"

/-- NightStocker.py line 227. -/
def static_disclaimer : String := "<i><b>NOTE</b>: This dataset holds \x27static\x27 data that we don\x27t expect to change. We have removed it from the SDE database and placed it in ArcGIS Online, but it is still considered part of the SGID and shared on opendata.gis.utah.gov.</i>"

/-- NightStocker.py lines 213-221: the metadata tag list (or the base set
when metadata has none) with AGRC and SGID ensured. -/
def assemble_tags (metadata : Metadata) : List String :=
  if metadata.tags ≠ "" then
    base_tags.foldl (fun tags tag => if tag ∉ tags then tags ++ [tag] else tags)
      (pySplitChar ',' metadata.tags)
  else base_tags

/-- NightStocker.py line 207: the category is the second-to-last
dot-separated segment of the qualified name, title-cased. The negative
index is modelled totally; the script is only run on fully qualified
names of the form SGID10.CATEGORY.Name. -/
def category_of (entry : Entry) : String :=
  let parts := pySplitChar '.' entry.fc_name
  pyTitle (parts.getD (parts.length - 2) "")

/-- NightStocker.py lines 202-259: get_info. The metadata record for the
entry and the generic terms of use are passed in explicitly (the script
reads them from metadata2.json and a text file at startup). An
unrecognized disposition raises ValueError (line 246). -/
def get_info (entry : Entry) (metadata : Metadata) (generic_terms_of_use : String) :
    Except PyError ItemInfo :=
  let category := category_of entry
  let credit := if entry.credit ≠ "" then entry.credit else "AGRC"
  let tags := assemble_tags metadata
  let description := metadata.description
  let terms := if metadata.licenseInfo ≠ "" then metadata.licenseInfo else generic_terms_of_use
  if entry.disposition = "shelved" then
    Except.ok {
      name := entry.title
      summary := String.mk (metadata.snippet.data.take 2047)
      groups := ["AGRC Shelf"]
      tags := String.intercalate ", " (tags ++ ["shelved"])
      description := shelved_disclaimer ++ " <p> </p> <p>" ++ description ++ "</p>"
      terms_of_use := terms
      credits := credit
      folder := "AGRC_Shelved" }
  else if entry.disposition = "static" then
    Except.ok {
      name := entry.title
      summary := String.mk (metadata.snippet.data.take 2047)
      groups := ["Utah SGID " ++ category]
      tags := String.intercalate ", " (tags ++ ["static", category])
      description := static_disclaimer ++ " <p> </p> <p>" ++ description ++ "</p>"
      terms_of_use := terms
      credits := credit
      folder := "Utah SGID " ++ category }
  else Except.error (PyError.valueError ("Unknown shelving category: " ++ entry.disposition))

/-- NightStocker.py line 405: entry[0].partition on the dot, kept piece 2,
that is the text after the first dot (empty when there is no dot). -/
def part_after_dot_go : List Char → List Char
  | [] => []
  | c :: rest => if c = '.' then rest else part_after_dot_go rest

/-- The String wrapper of part_after_dot_go. -/
def part_after_dot (s : String) : String := String.mk (part_after_dot_go s.data)

/-- Per-entry inputs of the publishing loop: the control row, its metadata
record, the arcpy describe results (datasetType, shapeType), and the
outcome of create_service_definition (the error carries the
arcpy.GetMessages text). -/
structure DatasetEnv where
  entry : Entry
  metadata : Metadata
  datasetType : String
  shapeType : String
  sdResult : Except String Unit

/-- Mutable state of the publishing loop: the in-memory log list, the CSV
log written by the finally clause, the rows sent to the spreadsheets, and
the current value of the log_entry variable. -/
structure LoopState where
  log : List (List String)
  csv : List (List String)
  gsheets : List (List String)
  last : Option (List String)
deriving DecidableEq

/-- NightStocker.py lines 373-424: one iteration of the publishing loop.
The try block catches only arcpy.ExecuteError. Any other exception still
runs the finally clause, which calls log_csv on the stale log_entry
variable (a NameError on the first iteration), and then propagates,
aborting the whole loop. -/
def run_step (generic : String) (st : LoopState) (env : DatasetEnv) :
    Except (PyError × LoopState) LoopState :=
  if env.datasetType = "Table" then
    let le := [env.entry.title, "Table: not uploaded"]
    Except.ok { st with log := st.log ++ [le], csv := st.csv ++ [le], last := some le }
  else
    match env.sdResult with
    | Except.error msg =>
      let le := [env.entry.title, pyReplaceChar ',' ';' msg]
      Except.ok { st with log := st.log ++ [le], csv := st.csv ++ [le], last := some le }
    | Except.ok _ =>
      match get_info env.entry env.metadata generic with
      | Except.error e =>
        match st.last with
        | some le => Except.error (e, { st with csv := st.csv ++ [le] })
        | none => Except.error (PyError.nameError, st)
      | Except.ok info =>
        let shape := pyLower env.shapeType
        let dash_name := pyLower (pyReplaceChar ' ' '-' env.entry.title)
        let endpoint := "https://opendata.gis.utah.gov/datasets/" ++ dash_name
        let data_layer := part_after_dot env.entry.fc_name
        let le := [env.entry.title, env.entry.disposition, data_layer, info.description,
                   info.credits, shape, endpoint, "testing"]
        Except.ok { st with
          log := st.log ++ [le]
          csv := st.csv ++ [le]
          gsheets := st.gsheets ++ [le]
          last := some le }

/-- The publishing loop over all entries; an uncaught exception aborts it
together with the state at that point. -/
def process_entries (generic : String) :
    List DatasetEnv → LoopState → Except (PyError × LoopState) LoopState
  | [], st => Except.ok st
  | env :: rest, st =>
    match run_step generic st env with
    | Except.ok st2 => process_entries generic rest st2
    | Except.error e => Except.error e

/-
Concrete instances used by individual claims.
-/

/-- The scenario B item: tags Utah, utah, Parks; title Utah Parks; no groups. -/
def c1_item : RemoteItem :=
  { title := "Utah Parks", tags := ["Utah", "utah", "Parks"], groupsResult := some [] }

/-- A concrete item satisfying the amended idempotence hypotheses. -/
def c2_item : RemoteItem :=
  { title := "Some Title", tags := ["sgid", " Trails "], groupsResult := some [] }

/-- A control row with the unrecognized disposition active. -/
def c3_entry : Entry :=
  { fc_name := "A.B.C2", title := "T2", credit := "", disposition := "active" }

/-- A minimal metadata record. -/
def c3_md : Metadata := { tags := "", description := "d", snippet := "s", licenseInfo := "" }

/-- A loop environment whose get_info call raises ValueError. -/
def c3_env : DatasetEnv :=
  { entry := c3_entry, metadata := c3_md, datasetType := "FeatureClass",
    shapeType := "Polygon", sdResult := Except.ok () }

/-- A loop state in which log_entry already holds a previous row. -/
def c3_st : LoopState := { log := [], csv := [], gsheets := [], last := some ["prev"] }

/-- A successful shelved environment processed before the failing one. -/
def c3_env1 : DatasetEnv :=
  { entry := { fc_name := "A.B.C", title := "T1", credit := "", disposition := "shelved" },
    metadata := c3_md, datasetType := "FeatureClass", shapeType := "Polygon",
    sdResult := Except.ok () }

/-- A further shelved environment that the aborted batch never reaches. -/
def c3_env3 : DatasetEnv :=
  { entry := { fc_name := "A.B.C3", title := "T3", credit := "", disposition := "shelved" },
    metadata := c3_md, datasetType := "FeatureClass", shapeType := "Polygon",
    sdResult := Except.ok () }

/-- The log row produced for c3_env1. -/
def c3_le1 : List String :=
  ["T1", "shelved", "B.C", shelved_disclaimer ++ " <p> </p> <p>d</p>", "AGRC", "polygon",
   "https://opendata.gis.utah.gov/datasets/t1", "testing"]

/-- A static control row for the C6 witness. -/
def c6_entry : Entry :=
  { fc_name := "SGID10.BIOSCIENCE.Habitat_Pigeon", title := "Pigeon Habitat",
    credit := "DWR", disposition := "static" }

/-- A metadata record with no tags for the C6 witness. -/
def c6_md : Metadata := { tags := "", description := "d", snippet := "s", licenseInfo := "" }

/-- A shelved control row for the C7 witness. -/
def c7_entry : Entry := { fc_name := "A.B.C", title := "T", credit := "", disposition := "shelved" }

/-- A metadata record whose snippet is 2100 characters long. -/
def c7_md : Metadata :=
  { tags := "", description := "d", snippet := String.mk (List.replicate 2100 'a'),
    licenseInfo := "" }

/-- The publish-info record get_info produces for c7_entry and c7_md. -/
def c7_info : ItemInfo :=
  { name := "T", summary := String.mk (c7_md.snippet.data.take 2047), groups := ["AGRC Shelf"],
    tags := "AGRC, SGID, shelved",
    description := shelved_disclaimer ++ " <p> </p> <p>" ++ "d" ++ "</p>",
    terms_of_use := "GL", credits := "AGRC", folder := "AGRC_Shelved" }

/-- A loop environment whose dataset is described as a standalone table. -/
def c10_env : DatasetEnv :=
  { entry := { fc_name := "A.B.C", title := "T1", credit := "", disposition := "shelved" },
    metadata := { tags := "", description := "d", snippet := "s", licenseInfo := "" },
    datasetType := "Table", shapeType := "Polygon", sdResult := Except.ok () }

/-
General helper lemmas about the string primitives.
-/

/-- Rebuilding a string from its characters is the identity. -/
theorem string_mk_data (s : String) : String.mk s.data = s := rfl

/-- dropWhile is idempotent. -/
theorem dropWhile_twice (p : Char → Bool) (l : List Char) :
    List.dropWhile p (List.dropWhile p l) = List.dropWhile p l := by
  induction l with
  | nil => rfl
  | cons c rest ih =>
    rw [List.dropWhile_cons]
    by_cases h : p c = true
    · rw [if_pos h]; exact ih
    · rw [if_neg h, List.dropWhile_cons, if_neg h]

/-- dropWhile never lengthens a list. -/
theorem dropWhile_length_le (p : Char → Bool) (l : List Char) :
    (List.dropWhile p l).length ≤ l.length := by
  induction l with
  | nil => exact Nat.le_refl _
  | cons c rest ih =>
    rw [List.dropWhile_cons]
    by_cases h : p c = true
    · rw [if_pos h]; exact Nat.le_trans ih (Nat.le_succ _)
    · rw [if_neg h]

/-- A list fixed by dropWhile has a head that fails the predicate. -/
theorem head_not_of_dropWhile_eq_self (p : Char → Bool) (c : Char) (t : List Char)
    (h : List.dropWhile p (c :: t) = c :: t) : p c = false := by
  cases hpc : p c with
  | false => rfl
  | true =>
    rw [List.dropWhile_cons, if_pos hpc] at h
    have hlen := dropWhile_length_le p t
    rw [h, List.length_cons] at hlen
    omega

/-- Trimming trailing characters yields a prefix of the original list. -/
theorem trim_right_is_front (p : Char → Bool) (m : List Char) :
    ∃ t, m = (List.dropWhile p m.reverse).reverse ++ t := by
  refine ⟨(List.takeWhile p m.reverse).reverse, ?_⟩
  conv_lhs => rw [← List.reverse_reverse m, ← List.takeWhile_append_dropWhile p m.reverse]
  rw [List.reverse_append]

/-- A list fixed by dropWhile stays fixed after trimming its tail. -/
theorem dropWhile_trim_right (p : Char → Bool) (m : List Char)
    (hm : List.dropWhile p m = m) :
    List.dropWhile p ((List.dropWhile p m.reverse).reverse)
      = (List.dropWhile p m.reverse).reverse := by
  obtain ⟨t, ht⟩ := trim_right_is_front p m
  cases hx : (List.dropWhile p m.reverse).reverse with
  | nil => rfl
  | cons c cs =>
    have hm2 : m = c :: (cs ++ t) := by rw [ht, hx, List.cons_append]
    have hc : p c = false := by
      apply head_not_of_dropWhile_eq_self p c (cs ++ t)
      rw [← hm2]; exact hm
    rw [List.dropWhile_cons, hc]
    simp

/-- strip_chars is idempotent. -/
theorem strip_chars_idem (l : List Char) : strip_chars (strip_chars l) = strip_chars l := by
  unfold strip_chars
  rw [dropWhile_trim_right Char.isWhitespace (List.dropWhile Char.isWhitespace l)
        (dropWhile_twice Char.isWhitespace l)]
  rw [List.reverse_reverse, dropWhile_twice]

/-- pyStrip is idempotent. -/
theorem pyStrip_idem (s : String) : pyStrip (pyStrip s) = pyStrip s := by
  show String.mk (strip_chars (strip_chars s.data)) = String.mk (strip_chars s.data)
  rw [strip_chars_idem]

/-
Helper lemmas for the tag fixer.
-/

/-- Every allowlisted lowercase tag round-trips through uppercasing and is
whitespace free. -/
theorem uppercased_facts : ∀ c ∈ uppercased_tags,
    pyLower (pyUpper c) = c ∧ pyStrip (pyUpper c) = pyUpper c := by decide

/-- Under the two stability hypotheses, every tag produced by the per-tag
checks is itself stripped and is a fixed point of the checks. -/
theorem fix_one_fixed (title : String) (ht : (pySplitWs title).contains "Utah" = false)
    (t : String) (hstrip : pyStrip t = t) :
    ∀ o ∈ fix_one_tag title t, pyStrip o = o ∧ fix_one_tag title o = [o] := by
  intro o ho
  simp only [fix_one_tag] at ho
  by_cases h1 : pyLower t ∈ uppercased_tags
  · rw [if_pos h1] at ho
    have hc := uppercased_facts (pyLower t) h1
    have ho2 : o = pyUpper (pyLower t) := List.eq_of_mem_singleton ho
    subst ho2
    refine ⟨hc.2, ?_⟩
    simp only [fix_one_tag]
    rw [hc.1, if_pos h1]
  · rw [if_neg h1] at ho
    by_cases h2 : pyLower t = "utah" ∧ (pySplitWs title).contains t = false
    · rw [if_pos h2] at ho
      have ho2 : o = "Utah" := List.eq_of_mem_singleton ho
      subst ho2
      refine ⟨by decide, ?_⟩
      simp only [fix_one_tag]
      rw [if_neg (by decide : ¬ pyLower "Utah" ∈ uppercased_tags),
          if_pos (show pyLower "Utah" = "utah"
              ∧ (pySplitWs title).contains "Utah" = false from ⟨by decide, ht⟩)]
    · rw [if_neg h2] at ho
      by_cases h3 : pyLower t = ".sd" ∨ pyLower t = "service definition"
      · rw [if_pos h3] at ho
        exact absurd ho (List.not_mem_nil o)
      · rw [if_neg h3] at ho
        by_cases h4 : ((pySplitWs title).contains t
            || (t.data.contains ' ' && is_sub t.data title.data)) = true
        · rw [if_pos h4] at ho
          exact absurd ho (List.not_mem_nil o)
        · rw [if_neg h4] at ho
          have ho2 : o = t := List.eq_of_mem_singleton ho
          subst ho2
          refine ⟨hstrip, ?_⟩
          simp only [fix_one_tag]
          rw [if_neg h1, if_neg h2, if_neg h3, if_neg h4]

/-- A flatMap over a function that boxes each member is the identity. -/
theorem flatMap_singleton_id {f : String → List String} :
    ∀ l : List String, (∀ o ∈ l, f o = [o]) → l.flatMap f = l := by
  intro l
  induction l with
  | nil => intro _; rfl
  | cons a rest ih =>
    intro h
    rw [List.flatMap_cons, h a (List.mem_cons_self a rest),
        ih (fun o ho => h o (List.mem_cons_of_mem a ho)), List.singleton_append]

/-- A map over a function that fixes each member is the identity. -/
theorem map_self_id {f : String → String} :
    ∀ l : List String, (∀ o ∈ l, f o = o) → l.map f = l := by
  intro l h
  rw [List.map_congr_left (g := id) (fun a ha => h a ha), List.map_id]

/-- With no Utah SGID marker among the groups, the category fold is the identity. -/
theorem fold_add_category_id (gs : List String) :
    (∀ g ∈ gs, is_sub ("Utah SGID").data g.data = false) →
    ∀ nt : List String, gs.foldl (fun nt g => add_category_tag g nt) nt = nt := by
  induction gs with
  | nil => intro _ nt; rfl
  | cons g rest ih =>
    intro h nt
    rw [List.foldl_cons]
    have hfalse := h g (List.mem_cons_self g rest)
    have hg : add_category_tag g nt = nt := by
      unfold add_category_tag
      rw [if_neg (by simp [hfalse])]
    rw [hg]
    exact ih (fun x hx => h x (List.mem_cons_of_mem g hx)) nt

/-- The per-tag phase of the fixer is idempotent when Utah is not a
standalone word of the title. -/
theorem tag_phase_idem (title : String) (ht : (pySplitWs title).contains "Utah" = false)
    (tags : List String) :
    (((tags.map pyStrip).flatMap (fix_one_tag title)).map pyStrip).flatMap (fix_one_tag title)
      = (tags.map pyStrip).flatMap (fix_one_tag title) := by
  have hfix : ∀ o ∈ (tags.map pyStrip).flatMap (fix_one_tag title),
      pyStrip o = o ∧ fix_one_tag title o = [o] := by
    intro o ho
    rw [List.mem_flatMap] at ho
    obtain ⟨a, ha, hoa⟩ := ho
    rw [List.mem_map] at ha
    obtain ⟨t, _, rfl⟩ := ha
    exact fix_one_fixed title ht (pyStrip t) (pyStrip_idem t) o hoa
  rw [map_self_id _ (fun o ho => (hfix o ho).1)]
  exact flatMap_singleton_id _ (fun o ho => (hfix o ho).2)

/-- Two string lists sort equally exactly when they are permutations. -/
theorem py_sorted_eq_iff_perm (l1 l2 : List String) :
    py_sorted l1 = py_sorted l2 ↔ l1.Perm l2 := by
  constructor
  · intro h
    have h1 : (py_sorted l1).Perm l1 := List.perm_insertionSort _ l1
    have h2 : (py_sorted l2).Perm l2 := List.perm_insertionSort _ l2
    rw [h] at h1
    exact h1.symm.trans h2
  · intro h
    exact List.eq_of_perm_of_sorted
      ((List.perm_insertionSort _ l1).trans (h.trans (List.perm_insertionSort _ l2).symm))
      (List.sorted_insertionSort _ l1) (List.sorted_insertionSort _ l2)

/-- The write-back test is negative exactly when old and new tags agree as
multisets. -/
theorem tags_changed_iff (i : RemoteItem) :
    tags_changed i = false ↔ (item_new_tags i).Perm i.tags := by
  unfold tags_changed
  rw [decide_eq_false_iff_not, not_ne_iff, py_sorted_eq_iff_perm]
  exact List.perm_comm

/-- tag_fixer returns the items, with exactly the changed tag sets replaced. -/
theorem tag_fixer_out (items : List RemoteItem) :
    (tag_fixer items).1
      = items.map (fun i => if tags_changed i then { i with tags := item_new_tags i } else i) := by
  induction items with
  | nil => rfl
  | cons item rest ih =>
    by_cases h : tags_changed item = true
    · simp [tag_fixer, h, ih]
    · simp [tag_fixer, h, ih]

/-- tag_fixer counts exactly the items whose write-back test fires. -/
theorem tag_fixer_count (items : List RemoteItem) :
    (tag_fixer items).2.1 = (items.filter (fun i => tags_changed i)).length := by
  induction items with
  | nil => rfl
  | cons item rest ih =>
    by_cases h : tags_changed item = true
    · simp [tag_fixer, List.filter_cons, h, ih]
    · simp [tag_fixer, List.filter_cons, h, ih]

/-- tag_fixer reports exactly the items whose group lookup failed, in order. -/
theorem tag_fixer_failed (items : List RemoteItem) :
    (tag_fixer items).2.2
      = (items.filter (fun i => i.groupsResult.isNone)).map RemoteItem.title := by
  induction items with
  | nil => rfl
  | cons item rest ih =>
    by_cases hf : item.groupsResult.isNone = true
    · by_cases h : tags_changed item = true
      · simp [tag_fixer, List.filter_cons, h, hf, ih]
      · simp [tag_fixer, List.filter_cons, h, hf, ih]
    · by_cases h : tags_changed item = true
      · simp [tag_fixer, List.filter_cons, h, hf, ih]
      · simp [tag_fixer, List.filter_cons, h, hf, ih]

/-
Helper lemmas for the duplicate-tag detector.
-/

/-- Lookup after a dict update: the updated key gains the tag at the end,
every other key is untouched. -/
theorem group_of_add_to_check (d : List (String × List String)) (c t c2 : String) :
    group_of (add_to_check d c t) c2
      = if c2 = c then group_of d c2 ++ [t] else group_of d c2 := by
  induction d with
  | nil =>
    simp only [add_to_check, group_of]
    by_cases h : c2 = c
    · subst h; rw [if_pos rfl, if_pos rfl, List.nil_append]
    · rw [if_neg h, if_neg (fun hh => h hh.symm)]
  | cons kv d ih =>
    obtain ⟨k, v⟩ := kv
    simp only [add_to_check]
    by_cases hk : k = c
    · rw [if_pos hk]
      subst hk
      by_cases h2 : c2 = k
      · subst h2
        simp [group_of]
      · rw [if_neg h2]
        simp [group_of, show ¬ k = c2 from fun hh => h2 hh.symm]
    · rw [if_neg hk]
      by_cases h2 : k = c2
      · subst h2
        rw [if_neg hk]
        simp [group_of]
      · have hL : group_of ((k, v) :: add_to_check d c t) c2
            = group_of (add_to_check d c t) c2 := by simp [group_of, h2]
        have hR : group_of ((k, v) :: d) c2 = group_of d c2 := by simp [group_of, h2]
        rw [hL, ih, hR]

/-- Lookup in the built check dictionary: the group of a check tag collects
exactly the processed tags that lowercase to it, in order. -/
theorem group_of_build_check :
    ∀ (tags : List String) (acc : List (String × List String)) (c : String),
      group_of (build_check acc tags) c
        = group_of acc c ++ tags.filter (fun t => pyLower t == c) := by
  intro tags
  induction tags with
  | nil => intro acc c; simp [build_check]
  | cons t rest ih =>
    intro acc c
    simp only [build_check]
    rw [ih, group_of_add_to_check, List.filter_cons]
    by_cases h : c = pyLower t
    · rw [if_pos h, if_pos (by rw [beq_iff_eq]; exact h.symm)]
      rw [List.append_assoc, List.singleton_append]
    · rw [if_neg h, if_neg (by rw [beq_iff_eq]; exact fun hh => h hh.symm)]

/-- Keys after a dict update. -/
theorem keys_add_to_check (d : List (String × List String)) (c t : String) :
    (add_to_check d c t).map Prod.fst
      = if c ∈ d.map Prod.fst then d.map Prod.fst else d.map Prod.fst ++ [c] := by
  induction d with
  | nil => simp [add_to_check]
  | cons kv d ih =>
    obtain ⟨k, v⟩ := kv
    simp only [add_to_check]
    by_cases hk : k = c
    · rw [if_pos hk]
      subst hk
      rw [if_pos (by simp)]
      rfl
    · rw [if_neg hk]
      simp only [List.map_cons]
      rw [ih]
      by_cases hc : c ∈ d.map Prod.fst
      · rw [if_pos hc, if_pos (List.mem_cons_of_mem _ hc)]
      · rw [if_neg hc, if_neg (by
          rw [List.mem_cons]
          rintro (h | h)
          · exact hk h.symm
          · exact hc h)]
        rw [List.cons_append]

/-- Dict updates preserve distinctness of the keys. -/
theorem nodup_keys_add_to_check (d : List (String × List String)) (c t : String)
    (h : (d.map Prod.fst).Nodup) : ((add_to_check d c t).map Prod.fst).Nodup := by
  rw [keys_add_to_check]
  by_cases hc : c ∈ d.map Prod.fst
  · rw [if_pos hc]; exact h
  · rw [if_neg hc]
    rw [List.nodup_append]
    refine ⟨h, List.nodup_singleton c, ?_⟩
    intro a ha hb
    rw [List.mem_singleton] at hb
    subst hb
    exact hc ha

/-- The built check dictionary has distinct keys. -/
theorem nodup_keys_build_check :
    ∀ (tags : List String) (acc : List (String × List String)),
      (acc.map Prod.fst).Nodup → ((build_check acc tags).map Prod.fst).Nodup := by
  intro tags
  induction tags with
  | nil => intro acc h; exact h
  | cons t rest ih =>
    intro acc h
    exact ih _ (nodup_keys_add_to_check acc (pyLower t) t h)

/-- In a dict with distinct keys, membership determines the lookup. -/
theorem group_of_eq_of_mem :
    ∀ (d : List (String × List String)) (c : String) (grp : List String),
      (d.map Prod.fst).Nodup → (c, grp) ∈ d → group_of d c = grp := by
  intro d
  induction d with
  | nil => intro c grp _ h; exact absurd h (List.not_mem_nil _)
  | cons kv d ih =>
    obtain ⟨k, v⟩ := kv
    intro c grp hnd hm
    simp only [List.map_cons, List.nodup_cons] at hnd
    rw [List.mem_cons] at hm
    cases hm with
    | inl h =>
      injection h with h1 h2
      simp only [group_of]
      rw [if_pos h1.symm]
      exact h2.symm
    | inr h =>
      have hk : ¬ k = c := by
        intro he
        subst he
        exact hnd.1 (List.mem_map_of_mem Prod.fst h)
      simp only [group_of]
      rw [if_neg hk]
      exact ih c grp hnd.2 h

/-
Helper lemmas for the category derivation from a group title.
-/

/-- A list is a Boolean prefix of itself followed by anything. -/
theorem isPrefixOf_self_append (l t : List Char) : l.isPrefixOf (l ++ t) = true := by
  induction l with
  | nil => cases t <;> rfl
  | cons c cs ih => simp [List.isPrefixOf, ih]

/-- Splitting a list in which the separator never occurs yields one piece. -/
theorem split_sep_go_no_occur (sep : List Char) :
    ∀ (l : List Char) (fuel : Nat) (acc : List Char),
      is_sub sep l = false → split_sep_go sep fuel l acc = [acc.reverse ++ l] := by
  intro l
  induction l with
  | nil =>
    intro fuel acc _
    cases fuel <;> simp [split_sep_go]
  | cons c rest ih =>
    intro fuel acc h
    simp only [is_sub, Bool.or_eq_false_iff] at h
    cases fuel with
    | zero => simp [split_sep_go]
    | succ f =>
      simp only [split_sep_go]
      rw [if_neg (by simp [h.1])]
      rw [ih f (c :: acc) h.2]
      simp

/-- Splitting a list that starts with the separator, where the separator
does not occur in the remainder, yields an empty piece and the remainder. -/
theorem split_sep_after_marker (t : List Char)
    (h : is_sub ("Utah SGID").data t = false) :
    split_sep_go ("Utah SGID").data (("Utah SGID").data ++ t).length
      (("Utah SGID").data ++ t) [] = [[], t] := by
  have hcons : ("Utah SGID").data ++ t = 'U' :: ("tah SGID".data ++ t) := rfl
  rw [hcons, List.length_cons]
  simp only [split_sep_go]
  rw [if_pos (by rw [← hcons]; exact isPrefixOf_self_append _ t)]
  rw [show List.drop ("Utah SGID").data.length ('U' :: ("tah SGID".data ++ t)) = t from by
    rw [← hcons]; exact List.drop_left _ t]
  rw [split_sep_go_no_occur _ t _ [] h]
  rfl

/-
Helper lemmas for the publish-info builder.
-/

/-- The assembled tag list always contains both base tags. -/
theorem mem_assemble_tags (md : Metadata) :
    "AGRC" ∈ assemble_tags md ∧ "SGID" ∈ assemble_tags md := by
  unfold assemble_tags
  by_cases h : md.tags ≠ ""
  · rw [if_pos h]
    simp only [base_tags, List.foldl_cons, List.foldl_nil]
    have hA : ("AGRC" : String)
        ∈ (if "AGRC" ∉ pySplitChar ',' md.tags
            then pySplitChar ',' md.tags ++ ["AGRC"] else pySplitChar ',' md.tags) := by
      by_cases h1 : "AGRC" ∉ pySplitChar ',' md.tags
      · rw [if_pos h1]; exact List.mem_append_right _ (by simp)
      · rw [if_neg h1]; exact not_not.mp h1
    by_cases h2 : ("SGID" : String)
        ∉ (if "AGRC" ∉ pySplitChar ',' md.tags
            then pySplitChar ',' md.tags ++ ["AGRC"] else pySplitChar ',' md.tags)
    · rw [if_pos h2]
      exact ⟨List.mem_append_left _ hA, List.mem_append_right _ (by simp)⟩
    · rw [if_neg h2]
      exact ⟨hA, not_not.mp h2⟩
  · rw [if_neg h]
    exact ⟨by simp [base_tags], by simp [base_tags]⟩

/-
Claim theorems.
-/

/-- C1 counterexample: on the scenario B item (tags Utah, utah, Parks and
title Utah Parks, no groups) the fixer yields the tag list Utah, not
Parks as the claim states: the lowercase utah tag is rewritten to Utah
and kept even though Utah is a standalone word of the title. -/
theorem c1_counterexample :
    item_new_tags c1_item = ["Utah"]
      ∧ ¬ (item_new_tags c1_item).Perm ["Parks"] := by decide

/-- C1 (corrected): for every remote item, a tag whose case-folded form is
utah (and which is not in the uppercase allowlist) is rewritten to Utah
unless that tag's own spelling appears as a standalone word of the title,
in which case it is dropped; the code compares the original tag spelling,
not the literal word Utah, against the title words. In particular the
scenario B item yields the final tag list Utah. -/
theorem c1_amended_thm :
    (∀ (title tag : String), pyLower tag = "utah" →
        fix_one_tag title tag
          = if (pySplitWs title).contains tag then [] else ["Utah"]) ∧
    item_new_tags c1_item = ["Utah"] := by
  refine ⟨?_, by decide⟩
  intro title tag h
  simp only [fix_one_tag]
  rw [if_neg (show ¬ pyLower tag ∈ uppercased_tags from by rw [h]; decide)]
  by_cases hw : (pySplitWs title).contains tag = true
  · rw [if_neg (show ¬ (pyLower tag = "utah" ∧ (pySplitWs title).contains tag = false) from
        fun hc => absurd hc.2 (by rw [hw]; decide))]
    rw [if_neg (show ¬ (pyLower tag = ".sd" ∨ pyLower tag = "service definition") from by
        rw [h]; decide)]
    rw [if_pos (show ((pySplitWs title).contains tag
        || (tag.data.contains ' ' && is_sub tag.data title.data)) = true from by
      rw [hw]; rfl)]
    rw [if_pos hw]
  · have hwf : (pySplitWs title).contains tag = false := by
      cases hcc : (pySplitWs title).contains tag
      · rfl
      · exact absurd hcc hw
    rw [if_pos (show pyLower tag = "utah"
        ∧ (pySplitWs title).contains tag = false from ⟨h, hwf⟩)]
    rw [if_neg hw]

/-- C1 witness: the general Utah rule applied to tag utah and title
Utah Parks, whose hypothesis holds by computation. -/
theorem c1_amended_witness :
    pyLower "utah" = "utah" ∧
    fix_one_tag "Utah Parks" "utah"
      = (if (pySplitWs "Utah Parks").contains "utah" then [] else ["Utah"]) :=
  ⟨by decide, c1_amended_thm.1 "Utah Parks" "utah" (by decide)⟩

/-- C2 counterexample: with title Utah Parks and no groups, the first run
turns the tag utah into Utah, and the second run, on the first run's
output with title and groups unchanged, drops it, so the second run's
tag set differs from the first even order-insensitively. -/
theorem c2_counterexample :
    item_new_tags { title := "Utah Parks", tags := ["utah"], groupsResult := some [] }
      = ["Utah"] ∧
    item_new_tags { title := "Utah Parks", tags := ["Utah"], groupsResult := some [] }
      = [] ∧
    ¬ (([] : List String).Perm ["Utah"]) := by decide

/-- C2 (corrected): the per-item tag transform is not idempotent in
general (the Utah rewrite interacts with a title containing Utah, and a
category from a Utah SGID group carries a leading space that the second
run strips and then re-adds). It is idempotent for every item whose
sharing-group titles do not contain the marker Utah SGID and whose title
does not contain Utah as a standalone word: rerunning the transform on
its own output, with title and groups unchanged, returns the same list. -/
theorem c2_amended_thm (item : RemoteItem)
    (hg : ∀ g ∈ item.groupsResult.getD [], is_sub ("Utah SGID").data g.data = false)
    (ht : (pySplitWs item.title).contains "Utah" = false) :
    item_new_tags { item with tags := item_new_tags item } = item_new_tags item := by
  have hbase : item_new_tags item
      = (item.tags.map pyStrip).flatMap (fix_one_tag item.title) := by
    simp only [item_new_tags]
    exact fold_add_category_id _ hg _
  have houter : item_new_tags { item with tags := item_new_tags item }
      = ((item_new_tags item).map pyStrip).flatMap (fix_one_tag item.title) := by
    simp only [item_new_tags]
    exact fold_add_category_id _ hg _
  rw [houter, hbase]
  exact tag_phase_idem item.title ht item.tags

/-- C2 witness: the amended idempotence applied to a concrete item with no
marker groups and no Utah in the title. -/
theorem c2_amended_witness :
    (pySplitWs c2_item.title).contains "Utah" = false ∧
    item_new_tags { c2_item with tags := item_new_tags c2_item } = item_new_tags c2_item :=
  ⟨by decide, c2_amended_thm c2_item (by decide) (by decide)⟩

set_option maxRecDepth 100000

/-- C3 counterexample: in a batch of three datasets where the second has
the unrecognized disposition active, the run aborts with the ValueError
at the second dataset (after the finally clause re-logs the stale first
row to the CSV); the third dataset is never processed, so the batch does
not continue as the claim states. -/
theorem c3_counterexample :
    process_entries "GL" [c3_env1, c3_env, c3_env3]
        { log := [], csv := [], gsheets := [], last := none }
      = Except.error (PyError.valueError "Unknown shelving category: active",
          { log := [c3_le1], csv := [c3_le1, c3_le1], gsheets := [c3_le1],
            last := some c3_le1 }) ∧
    "T3" ∉ [c3_le1].map (fun r => r.getD 0 "") := by decide

/-- C3 (corrected): for every dataset record whose disposition is neither
shelved nor static, building the publish-info record fails, but with a
ValueError, and the per-dataset boundary of the publishing loop catches
only arcpy.ExecuteError: the ValueError escapes, so the batch aborts at
that dataset instead of continuing with the next one. -/
theorem c3_amended_thm (entry : Entry) (metadata : Metadata) (generic : String)
    (h1 : entry.disposition ≠ "shelved") (h2 : entry.disposition ≠ "static") :
    get_info entry metadata generic
      = Except.error (PyError.valueError ("Unknown shelving category: " ++ entry.disposition)) ∧
    ∀ (env : DatasetEnv) (rest : List DatasetEnv) (st : LoopState) (le : List String),
      env.entry = entry → env.metadata = metadata → env.datasetType ≠ "Table" →
      env.sdResult = Except.ok () → st.last = some le →
      process_entries generic (env :: rest) st
        = Except.error
            (PyError.valueError ("Unknown shelving category: " ++ entry.disposition),
             { st with csv := st.csv ++ [le] }) := by
  have hgi : get_info entry metadata generic
      = Except.error (PyError.valueError ("Unknown shelving category: " ++ entry.disposition)) := by
    unfold get_info
    rw [if_neg h1, if_neg h2]
  refine ⟨hgi, ?_⟩
  intro env rest st le he hm hdt hsd hlast
  have hrs : run_step generic st env
      = Except.error (PyError.valueError ("Unknown shelving category: " ++ entry.disposition),
          { st with csv := st.csv ++ [le] }) := by
    unfold run_step
    rw [if_neg hdt, hsd, he, hm, hgi, hlast]
  simp only [process_entries]
  rw [hrs]

/-- C3 witness: the amended claim applied to a concrete dataset with
disposition active, a one-element batch and a loop state holding a
previous log row. -/
theorem c3_amended_witness :
    get_info c3_entry c3_md "GL"
      = Except.error (PyError.valueError ("Unknown shelving category: " ++ c3_entry.disposition)) ∧
    process_entries "GL" [c3_env] c3_st
      = Except.error
          (PyError.valueError ("Unknown shelving category: " ++ c3_entry.disposition),
           { c3_st with csv := c3_st.csv ++ [["prev"]] }) :=
  ⟨(c3_amended_thm c3_entry c3_md "GL" (by decide) (by decide)).1,
   (c3_amended_thm c3_entry c3_md "GL" (by decide) (by decide)).2 c3_env [] c3_st ["prev"]
     rfl rfl (by decide) rfl rfl⟩

/-- C4: the duplicate-tag detector. Any two index keys that agree after
case folding land in the same canonical group of the check dictionary;
with distinct index keys every reported group holds at least two distinct
spellings (so a group with exactly one spelling is never reported); and
the scenario C index consisting of SGID, sgid and Parks reports exactly
the group sgid with spellings SGID and sgid. -/
theorem c4_thm :
    (∀ (idx : List (String × List String)) (t1 t2 : String),
        t1 ∈ idx.map Prod.fst → t2 ∈ idx.map Prod.fst → pyLower t1 = pyLower t2 →
        t1 ∈ group_of (tags_by_check_tag idx) (pyLower t1) ∧
        t2 ∈ group_of (tags_by_check_tag idx) (pyLower t1)) ∧
    (∀ idx : List (String × List String), (idx.map Prod.fst).Nodup →
        ∀ p ∈ get_duplicate_tags idx, 1 < p.2.length ∧ p.2.Nodup) ∧
    get_duplicate_tags [("SGID", ["i1"]), ("sgid", ["i2"]), ("Parks", ["i3"])]
      = [("sgid", ["SGID", "sgid"])] := by
  refine ⟨?_, ?_, by decide⟩
  · intro idx t1 t2 h1 h2 hl
    unfold tags_by_check_tag
    rw [group_of_build_check]
    simp only [group_of, List.nil_append]
    constructor
    · rw [List.mem_filter]
      exact ⟨h1, by simp⟩
    · rw [List.mem_filter]
      refine ⟨h2, ?_⟩
      rw [beq_iff_eq]
      exact hl.symm
  · intro idx hnd p hp
    unfold get_duplicate_tags at hp
    rw [List.mem_filter] at hp
    obtain ⟨hpmem, hplen⟩ := hp
    refine ⟨of_decide_eq_true hplen, ?_⟩
    obtain ⟨c, grp⟩ := p
    have hnd2 : ((tags_by_check_tag idx).map Prod.fst).Nodup :=
      nodup_keys_build_check _ [] (by simp)
    have hgrp := group_of_eq_of_mem _ c grp hnd2 hpmem
    unfold tags_by_check_tag at hgrp
    rw [group_of_build_check] at hgrp
    simp only [group_of, List.nil_append] at hgrp
    rw [← hgrp]
    exact List.Nodup.filter _ hnd

/-- C4 witness: in the scenario C index the keys SGID and sgid case-fold
together and both appear in the canonical group of sgid. -/
theorem c4_witness :
    "SGID" ∈ group_of
        (tags_by_check_tag [("SGID", ["i1"]), ("sgid", ["i2"]), ("Parks", ["i3"])])
        (pyLower "SGID") ∧
    "sgid" ∈ group_of
        (tags_by_check_tag [("SGID", ["i1"]), ("sgid", ["i2"]), ("Parks", ["i3"])])
        (pyLower "SGID") :=
  c4_thm.1 [("SGID", ["i1"]), ("sgid", ["i2"]), ("Parks", ["i3"])] "SGID" "sgid"
    (by decide) (by decide) (by decide)

/-- C5: end-to-end scenario A. The control row for the shelved pigeon
habitat dataset with empty metadata tags and license and generic license
GL produces publish-info with tags AGRC, SGID, shelved, terms of use GL,
folder AGRC_Shelved and groups AGRC Shelf. -/
theorem c5_thm :
    (get_info
        { fc_name := "SGID10.BIOSCIENCE.Habitat_Pigeon", title := "Pigeon Habitat",
          credit := "DWR", disposition := "shelved" }
        { tags := "", description := "d", snippet := "s", licenseInfo := "" } "GL").map
        (fun info => (info.tags, info.terms_of_use, info.folder, info.groups))
      = Except.ok ("AGRC, SGID, shelved", "GL", "AGRC_Shelved", ["AGRC Shelf"]) := by decide

/-- C6: for every dataset record with disposition static, get_info
succeeds and the produced tag list contains AGRC, SGID, the disposition
tag static and the title-cased category from the second-to-last dot
segment of the qualified name, and the description is the metadata
description wrapped in a paragraph and prefixed with the static
disclaimer. -/
theorem c6_thm (entry : Entry) (metadata : Metadata) (generic : String)
    (h : entry.disposition = "static") :
    get_info entry metadata generic = Except.ok {
        name := entry.title
        summary := String.mk (metadata.snippet.data.take 2047)
        groups := ["Utah SGID " ++ category_of entry]
        tags := String.intercalate ", " (assemble_tags metadata ++ ["static", category_of entry])
        description := static_disclaimer ++ " <p> </p> <p>" ++ metadata.description ++ "</p>"
        terms_of_use := if metadata.licenseInfo ≠ "" then metadata.licenseInfo else generic
        credits := if entry.credit ≠ "" then entry.credit else "AGRC"
        folder := "Utah SGID " ++ category_of entry } ∧
    "AGRC" ∈ assemble_tags metadata ++ ["static", category_of entry] ∧
    "SGID" ∈ assemble_tags metadata ++ ["static", category_of entry] ∧
    "static" ∈ assemble_tags metadata ++ ["static", category_of entry] ∧
    category_of entry ∈ assemble_tags metadata ++ ["static", category_of entry] := by
  refine ⟨?_, List.mem_append_left _ (mem_assemble_tags metadata).1,
    List.mem_append_left _ (mem_assemble_tags metadata).2,
    List.mem_append_right _ (by simp), List.mem_append_right _ (by simp)⟩
  unfold get_info
  rw [h]
  rw [if_neg (by decide : ¬ ("static" : String) = "shelved"), if_pos rfl]

/-- C6 witness: the static record for the pigeon habitat dataset, whose
hypothesis holds by computation. -/
theorem c6_witness :
    c6_entry.disposition = "static" ∧
    "static" ∈ assemble_tags c6_md ++ ["static", category_of c6_entry] :=
  ⟨rfl, (c6_thm c6_entry c6_md "GL" rfl).2.2.2.1⟩

/-- C7: for every dataset whose get_info call succeeds, the publish-info
summary is the snippet truncated to its first 2047 characters when the
snippet is longer than 2047 characters and the unchanged snippet
otherwise, so its length is the minimum of 2047 and the snippet length. -/
theorem c7_thm (entry : Entry) (metadata : Metadata) (generic : String) (info : ItemInfo)
    (h : get_info entry metadata generic = Except.ok info) :
    info.summary = (if 2047 < metadata.snippet.length then
        String.mk (metadata.snippet.data.take 2047) else metadata.snippet) ∧
    info.summary.length = min 2047 metadata.snippet.length := by
  have hsum : info.summary = String.mk (metadata.snippet.data.take 2047) := by
    unfold get_info at h
    by_cases h1 : entry.disposition = "shelved"
    · rw [if_pos h1] at h
      injection h with h2
      rw [← h2]
    · rw [if_neg h1] at h
      by_cases h2 : entry.disposition = "static"
      · rw [if_pos h2] at h
        injection h with h3
        rw [← h3]
      · rw [if_neg h2] at h
        simp at h
  refine ⟨?_, ?_⟩
  · rw [hsum]
    by_cases hl : 2047 < metadata.snippet.length
    · rw [if_pos hl]
    · rw [if_neg hl]
      have hle : metadata.snippet.data.length ≤ 2047 := by
        have hlen : metadata.snippet.length = metadata.snippet.data.length := rfl
        omega
      rw [List.take_of_length_le hle]
  · rw [hsum]
    show (metadata.snippet.data.take 2047).length = min 2047 metadata.snippet.length
    exact List.length_take 2047 metadata.snippet.data

/-- C7 witness: a shelved record whose snippet has 2100 characters; the
summary is the 2047-character truncation. -/
theorem c7_witness :
    c7_info.summary = (if 2047 < c7_md.snippet.length then
        String.mk (c7_md.snippet.data.take 2047) else c7_md.snippet) ∧
    c7_info.summary.length = min 2047 c7_md.snippet.length :=
  c7_thm c7_entry c7_md "GL" c7_info rfl

/-- C8: the tag fixer write-back frame condition. The run returns the
items with exactly the changed tag sets replaced, issues a number of
updates equal to the number of items whose recomputed tags differ from
the current tags under the sorted comparison, reports exactly the items
whose group lookup failed, and the write-back test is negative exactly
when the recomputed tag set equals the current one as a multiset. -/
theorem c8_thm : ∀ items : List RemoteItem,
    (tag_fixer items).1
      = items.map (fun i => if tags_changed i then { i with tags := item_new_tags i } else i) ∧
    (tag_fixer items).2.1 = (items.filter (fun i => tags_changed i)).length ∧
    (tag_fixer items).2.2
      = (items.filter (fun i => i.groupsResult.isNone)).map RemoteItem.title ∧
    ∀ i : RemoteItem, (tags_changed i = false ↔ (item_new_tags i).Perm i.tags) :=
  fun items =>
    ⟨tag_fixer_out items, tag_fixer_count items, tag_fixer_failed items, tags_changed_iff⟩

/-- C9: the implicit leading-space category. For every category remainder
in which the marker Utah SGID does not occur, splitting the group title
marker-plus-remainder on the marker and taking the last piece returns the
remainder verbatim, leading whitespace included; concretely, an item with
tag list containing a padded tag and shared with the group Utah SGID
Bioscience ends with the stripped tag Parks but the space-led category
tag Bioscience and the added SGID tag. -/
theorem c9_thm :
    (∀ c : String, is_sub ("Utah SGID").data c.data = false →
        (pySplitSep "Utah SGID" ("Utah SGID" ++ c)).getLastD "" = c) ∧
    item_new_tags { title := "Foo", tags := [" Parks "], groupsResult := some ["Utah SGID Bioscience"] } = ["Parks", " Bioscience", "SGID"] ∧
    (" Bioscience" : String).data.head? = some ' ' := by
  refine ⟨?_, by decide, by decide⟩
  intro c h
  unfold pySplitSep
  have hdata : ("Utah SGID" ++ c).data = ("Utah SGID").data ++ c.data := rfl
  rw [hdata, split_sep_after_marker c.data h]
  simp only [List.map_cons, List.map_nil]
  rw [show List.getLastD [String.mk [], String.mk c.data] "" = String.mk c.data from rfl]

/-- C9 witness: the category lemma applied to the remainder with a leading
space, whose no-occurrence hypothesis holds by computation. -/
theorem c9_witness :
    is_sub ("Utah SGID").data (" Bioscience" : String).data = false ∧
    (pySplitSep "Utah SGID" ("Utah SGID" ++ " Bioscience")).getLastD "" = " Bioscience" :=
  ⟨by decide, c9_thm.1 " Bioscience" (by decide)⟩

/-- A table row appends its log entry to the two logs, sets log_entry and
touches nothing else. -/
theorem run_step_table (generic : String) (st : LoopState) (env : DatasetEnv)
    (h : env.datasetType = "Table") :
    run_step generic st env = Except.ok { st with
        log := st.log ++ [[env.entry.title, "Table: not uploaded"]]
        csv := st.csv ++ [[env.entry.title, "Table: not uploaded"]]
        last := some [env.entry.title, "Table: not uploaded"] } := by
  unfold run_step
  rw [if_pos h]

/-- C10: a control row whose dataset is described as a standalone table
only appends the row title with the text Table: not uploaded to the
in-memory log and the CSV log and records it as the current log_entry;
the spreadsheet rows are untouched and the step does not depend on the
service-definition outcome or the metadata record, so no service
definition is consumed and no publish-info is built for it. -/
theorem c10_thm (generic : String) (st : LoopState) (env : DatasetEnv)
    (h : env.datasetType = "Table") :
    run_step generic st env = Except.ok { st with
        log := st.log ++ [[env.entry.title, "Table: not uploaded"]]
        csv := st.csv ++ [[env.entry.title, "Table: not uploaded"]]
        last := some [env.entry.title, "Table: not uploaded"] } ∧
    ∀ (sd : Except String Unit) (md : Metadata),
      run_step generic st { env with sdResult := sd, metadata := md } = run_step generic st env := by
  refine ⟨run_step_table generic st env h, ?_⟩
  intro sd md
  rw [run_step_table generic st env h,
    run_step_table generic st { env with sdResult := sd, metadata := md } h]

/-- C10 witness: a concrete table row, whose hypothesis holds by
computation; only the two logs and the log_entry variable change. -/
theorem c10_witness :
    c10_env.datasetType = "Table" ∧
    run_step "GL" { log := [], csv := [], gsheets := [], last := none } c10_env
      = Except.ok { log := [["T1", "Table: not uploaded"]]
                    csv := [["T1", "Table: not uploaded"]]
                    gsheets := []
                    last := some ["T1", "Table: not uploaded"] } :=
  ⟨rfl, (c10_thm "GL" { log := [], csv := [], gsheets := [], last := none } c10_env rfl).1⟩
